import Mathlib

/-!
Shallow embedding of three lint rules of the oxc linter and of the attribute
inspection utilities they use:

* `NoSyncScripts`               (crates/oxc_linter/src/rules/nextjs/no_sync_scripts.rs)
* `GoogleFontPreconnect`        (crates/oxc_linter/src/rules/nextjs/google_font_preconnect.rs)
* `RoleHasRequiredAriaProps`    (crates/oxc_linter/src/rules/jsx_a11y/role_has_required_aria_props.rs)

The `run` function of a rule receives one syntax-tree node and appends diagnostics
to the diagnostic sink of the lint context; here each `run` is the pure function from the node
to the list of diagnostics it appends, in emission order.  JSX attribute
names, values and spread items are embedded as inductive types that follow the
`oxc_ast` shapes the rules pattern-match on (`JSXAttributeItem`,
`JSXAttributeName`, `JSXAttributeValue`, `JSXElementName`).  Strings are Lean
`String`s; source spans are pairs of byte offsets.
-/

namespace Oxc

/-- A source span: start and end byte offsets (`oxc_span::Span`). -/
structure Span where
  start : Nat
  stop : Nat
deriving DecidableEq, Repr

/-- Embeds `oxc_ast::ast::JSXAttributeName`: a plain identifier or a namespaced name. -/
inductive JSXAttributeName where
  | Identifier (name : String)
  | NamespacedName (ns name : String)
deriving DecidableEq, Repr

/-- Embeds `oxc_ast::ast::JSXAttributeValue`: a string literal, an expression
container (a value unknown at analysis time), or a nested element/fragment. -/
inductive JSXAttributeValue where
  | StringLiteral (value : String)
  | ExpressionContainer
  | Element
  | Fragment
deriving DecidableEq, Repr

/-- A named JSX attribute: name, optional value, source span. -/
structure JSXAttribute where
  name : JSXAttributeName
  value : Option JSXAttributeValue
  span : Span
deriving DecidableEq, Repr

/-- Embeds `oxc_ast::ast::JSXAttributeItem`: a named attribute or a spread attribute
(whose contents are unknown at analysis time). -/
inductive JSXAttributeItem where
  | Attribute (attr : JSXAttribute)
  | SpreadAttribute
deriving DecidableEq, Repr

/-- Embeds `oxc_ast::ast::JSXElementName`: the rules only inspect the identifier
case; member expressions and namespaced element names are opaque here. -/
inductive JSXElementName where
  | Identifier (name : String) (span : Span)
  | NamespacedName
  | MemberExpression
deriving DecidableEq, Repr

/-- Embeds `oxc_ast::ast::JSXOpeningElement`: element name plus attribute list. -/
structure JSXOpeningElement where
  name : JSXElementName
  attributes : List JSXAttributeItem
deriving DecidableEq, Repr

/-- The node kinds dispatched to the `run` function of a rule; the three rules only act on
`JSXOpeningElement` nodes and no-op on every other kind. -/
inductive AstKind where
  | JSXOpeningElement (el : JSXOpeningElement)
  | otherKind
deriving DecidableEq, Repr

/-- The Rust `str::to_lowercase` as used on attribute names (which are ASCII):
lowercase every character. -/
def toLowerStr (s : String) : String :=
  String.mk (s.data.map Char.toLower)

/-- The predicate `has_jsx_prop_lowercase` tests one attribute item against:
a named attribute whose identifier name matches the target case-insensitively;
spread attributes and namespaced names never match. -/
def matchesLowercase (target : String) : JSXAttributeItem → Bool
  | .Attribute a =>
    match a.name with
    | .Identifier n => toLowerStr n == toLowerStr target
    | .NamespacedName _ _ => false
  | .SpreadAttribute => false

/-- Modelled from the spec: `has_jsx_prop_lowercase` (the crate
`utils::has_jsx_prop_lowercase`, called `find_attribute` in the spec; its body is not
under src/): case-insensitive match on the attribute name, returning the first
matching named attribute item and ignoring spread attributes entirely. -/
def has_jsx_prop_lowercase (el : JSXOpeningElement) (target : String) :
    Option JSXAttributeItem :=
  el.attributes.find? (matchesLowercase target)

/-- Modelled from the spec: `get_string_literal_prop_value` (the crate
`utils::get_string_literal_prop_value`, called `literal_string_value` in the
spec; its body is not under src/): returns the string if the attribute value is a
plain string literal; `none` when no value is given (boolean-attribute
shorthand) or the value is a non-literal expression. -/
def get_string_literal_prop_value : JSXAttributeItem → Option String
  | .Attribute a =>
    match a.value with
    | some (.StringLiteral s) => some s
    | _ => none
  | .SpreadAttribute => none

/-! ## NoSyncScripts -/

/-- Embeds `NoSyncScriptsDiagnostic`: carries the labelled span. -/
structure NoSyncScriptsDiagnostic where
  span : Span
deriving DecidableEq, Repr

/-- The set of attribute names `NoSyncScripts::run` collects: identifier
names of named attributes, as written (no lowercasing); spread items and
namespaced names are dropped by the `filter_map`s.  The Rust code collects
them into an `FxHashSet` and only tests membership, so a list with list
membership is an equivalent embedding. -/
def attrNameOf : JSXAttributeItem → Option String
  | .Attribute a =>
    match a.name with
    | .Identifier n => some n
    | .NamespacedName _ _ => none
  | .SpreadAttribute => none

/-- The attribute-name list of an element, as `NoSyncScripts::run` builds it. -/
def attrIdentNames (el : JSXOpeningElement) : List String :=
  el.attributes.filterMap attrNameOf

/-- Embeds `NoSyncScripts::run`: on a `script` opening element, emit one diagnostic
at the span of the element name when the attribute-name set contains `src` and
contains neither `async` nor `defer`. -/
def NoSyncScripts.run (node : AstKind) : List NoSyncScriptsDiagnostic :=
  match node with
  | .JSXOpeningElement el =>
    match el.name with
    | .Identifier nm sp =>
      if nm ≠ "script" then []
      else
        let names := attrIdentNames el
        if "src" ∈ names ∧ "async" ∉ names ∧ "defer" ∉ names then [⟨sp⟩]
        else []
    | .NamespacedName => []
    | .MemberExpression => []
  | .otherKind => []

/-! ## GoogleFontPreconnect -/

/-- The Rust `str::starts_with` on a string pattern: the pattern characters
are a prefix of the receiver characters. -/
def strStartsWith (s pat : String) : Bool :=
  pat.data.isPrefixOf s.data

/-- Embeds `GoogleFontPreconnectDiagnostic`: carries the labelled span. -/
structure GoogleFontPreconnectDiagnostic where
  span : Span
deriving DecidableEq, Repr

/-- Embeds `GoogleFontPreconnect::run`: on a `link` opening element whose `href`
attribute has a string-literal value starting with the Google Fonts host,
emit one diagnostic at the span of the element name unless the `rel` attribute
exists and its string-literal value is exactly `preconnect`. -/
def GoogleFontPreconnect.run (node : AstKind) : List GoogleFontPreconnectDiagnostic :=
  match node with
  | .JSXOpeningElement el =>
    match el.name with
    | .Identifier nm sp =>
      if nm ≠ "link" then []
      else
        match has_jsx_prop_lowercase el "href" with
        | none => []
        | some hrefProp =>
          match get_string_literal_prop_value hrefProp with
          | none => []
          | some hrefVal =>
            let preconnectMissing : Bool :=
              match has_jsx_prop_lowercase el "rel" with
              | none => true
              | some relProp =>
                !(get_string_literal_prop_value relProp == some "preconnect")
            if strStartsWith hrefVal "https://fonts.gstatic.com" && preconnectMissing
            then [⟨sp⟩]
            else []
    | .NamespacedName => []
    | .MemberExpression => []
  | .otherKind => []

/-! ## RoleHasRequiredAriaProps -/

/-- Embeds `RoleHasRequiredAriaPropsDiagnostic`: labelled span plus the role name and
the missing required prop used for message interpolation. -/
structure RoleHasRequiredAriaPropsDiagnostic where
  span : Span
  role : String
  props : String
deriving DecidableEq, Repr

/-- Embeds `ROLE_TO_REQUIRED_ARIA_PROPS`: the static role-to-required-props table
(a `phf::Map` of `phf::Set`s in the source; an association list here, in
declaration order — the source map is immutable and keys are distinct, so
lookup agrees; the set iteration order inside one role only permutes
diagnostics of that role and no claim depends on it). -/
def ROLE_TO_REQUIRED_ARIA_PROPS : List (String × List String) :=
  [("checkbox", ["aria-checked"]),
   ("radio", ["aria-checked"]),
   ("combobox", ["aria-controls", "aria-expanded"]),
   ("tab", ["aria-selected"]),
   ("slider", ["aria-valuemax", "aria-valuemin", "aria-valuenow"]),
   ("scrollbar", ["aria-valuemax", "aria-valuemin", "aria-valuenow",
                  "aria-orientation", "aria-controls"]),
   ("heading", ["aria-level"]),
   ("option", ["aria-selected"])]

/-- Worker for `splitWhitespaceTokens`: walks the characters, `acc` holds the
characters of the current token in reverse. -/
def splitWhitespaceAux : List Char → List Char → List String
  | [], acc => if acc.isEmpty then [] else [String.mk acc.reverse]
  | c :: cs, acc =>
    if c.isWhitespace then
      (if acc.isEmpty then [] else [String.mk acc.reverse]) ++ splitWhitespaceAux cs []
    else splitWhitespaceAux cs (c :: acc)

/-- The Rust `str::split_whitespace`: split on whitespace, dropping empty
substrings (so consecutive, leading and trailing whitespace produce no
tokens). -/
def splitWhitespaceTokens (s : String) : List String :=
  splitWhitespaceAux s.data []

/-- The diagnostics `RoleHasRequiredAriaProps::run` emits for one role token:
nothing for a role outside the table, otherwise one diagnostic (at the role
role attribute span) per required prop with no case-insensitive named-attribute
match on the element. -/
def diagnosticsForRole (el : JSXOpeningElement) (attrSpan : Span) (role : String) :
    List RoleHasRequiredAriaPropsDiagnostic :=
  match ROLE_TO_REQUIRED_ARIA_PROPS.lookup role with
  | none => []
  | some props =>
    props.filterMap fun prop =>
      if (has_jsx_prop_lowercase el prop).isNone
      then some ⟨attrSpan, role, prop⟩
      else none

/-- Embeds `RoleHasRequiredAriaProps::run`: on a JSX opening element whose `role`
attribute (found case-insensitively) is a named attribute with a
string-literal value, split that value on whitespace and, for each token that
is a known role, report every required aria prop absent (case-insensitively)
from the named attributes of the element. -/
def RoleHasRequiredAriaProps.run (node : AstKind) :
    List RoleHasRequiredAriaPropsDiagnostic :=
  match node with
  | .JSXOpeningElement jsxEl =>
    match has_jsx_prop_lowercase jsxEl "role" with
    | none => []
    | some roleProp =>
      match roleProp with
      | .SpreadAttribute => []
      | .Attribute attr =>
        match attr.value with
        | some (.StringLiteral roleValues) =>
          (splitWhitespaceTokens roleValues).flatMap
            (diagnosticsForRole jsxEl attr.span)
        | _ => []
  | .otherKind => []

/-! ## Spec-side characterizations

Definitions used to state the claims: they describe the observable
behavior in the vocabulary of the spec (presence of an attribute under
case-insensitive matching, the rel-equals-preconnect condition, the
required-props table as a total function, spread removal). -/

/-- An element carries an attribute named `p` case-insensitively: some named
attribute with an identifier name matches `p` up to lowercasing. -/
def presentLowercase (el : JSXOpeningElement) (p : String) : Bool :=
  el.attributes.any (matchesLowercase p)

/-- Selects the named (non-spread) attribute items. -/
def isNamedAttr : JSXAttributeItem → Bool
  | .Attribute _ => true
  | .SpreadAttribute => false

/-- Drops every spread attribute from the attribute list of an element. -/
def removeSpreads (el : JSXOpeningElement) : JSXOpeningElement :=
  { el with attributes := el.attributes.filter isNamedAttr }

/-- The `rel` attribute exists and its string-literal value is exactly
`preconnect` (the suppression condition of `GoogleFontPreconnect`). -/
def relIsPreconnect (el : JSXOpeningElement) : Bool :=
  match has_jsx_prop_lowercase el "rel" with
  | none => false
  | some relProp => get_string_literal_prop_value relProp == some "preconnect"

/-- The required aria props of a role token: the table entry, or `[]` for a
token outside the table. -/
def requiredProps (role : String) : List String :=
  (ROLE_TO_REQUIRED_ARIA_PROPS.lookup role).getD []

/-! ## General lemmas -/

lemma isNone_eq_bang_isSome {α : Type} (o : Option α) : o.isNone = !o.isSome := by
  cases o <;> rfl

lemma find?_isSome_eq_any {α : Type} (l : List α) (p : α → Bool) :
    (l.find? p).isSome = l.any p := by
  induction l with
  | nil => rfl
  | cons x xs ih =>
    cases hx : p x
    · rw [List.find?_cons_of_neg _ (by simp [hx]), List.any_cons, hx, ih]
      simp
    · rw [List.find?_cons_of_pos _ hx, List.any_cons, hx]
      simp

lemma hasProp_isSome_eq_present (el : JSXOpeningElement) (t : String) :
    (has_jsx_prop_lowercase el t).isSome = presentLowercase el t :=
  find?_isSome_eq_any el.attributes (matchesLowercase t)

lemma hasProp_isNone_eq_not_present (el : JSXOpeningElement) (t : String) :
    (has_jsx_prop_lowercase el t).isNone = !(presentLowercase el t) := by
  rw [isNone_eq_bang_isSome, hasProp_isSome_eq_present]

lemma length_filterMap_ite {α β : Type} (l : List α) (c : α → Bool) (g : α → β) :
    (l.filterMap fun a => if c a then some (g a) else none).length
      = (l.filter c).length := by
  induction l with
  | nil => rfl
  | cons x xs ih =>
    cases hx : c x <;> simp [List.filterMap_cons, List.filter_cons, hx, ih]

lemma length_flatMap_eq_sum {α β : Type} (l : List α) (f : α → List β) :
    (l.flatMap f).length = (l.map fun a => (f a).length).sum := by
  induction l with
  | nil => rfl
  | cons x xs ih => simp [List.flatMap_cons, ih]

lemma diagnosticsForRole_length (el : JSXOpeningElement) (sp : Span) (role : String) :
    (diagnosticsForRole el sp role).length
      = ((requiredProps role).filter fun p => !(presentLowercase el p)).length := by
  unfold diagnosticsForRole requiredProps
  cases hl : ROLE_TO_REQUIRED_ARIA_PROPS.lookup role with
  | none => simp
  | some props =>
    simp only [Option.getD_some]
    rw [length_filterMap_ite props (fun prop => (has_jsx_prop_lowercase el prop).isNone)
        (fun prop => ({ span := sp, role := role, props := prop } :
          RoleHasRequiredAriaPropsDiagnostic))]
    congr 1
    exact List.filter_congr fun p _ => hasProp_isNone_eq_not_present el p

lemma roleRun_eq (el : JSXOpeningElement) (attr : JSXAttribute) (s : String)
    (hrole : has_jsx_prop_lowercase el "role" = some (.Attribute attr))
    (hval : attr.value = some (.StringLiteral s)) :
    RoleHasRequiredAriaProps.run (.JSXOpeningElement el) =
      (splitWhitespaceTokens s).flatMap (diagnosticsForRole el attr.span) := by
  obtain ⟨anm, av, asp⟩ := attr
  simp only at hval
  subst hval
  simp only [RoleHasRequiredAriaProps.run]
  rw [hrole]

lemma lookup_role_whitespace_free (R : String) (props : List String)
    (h : ROLE_TO_REQUIRED_ARIA_PROPS.lookup R = some props) :
    splitWhitespaceTokens R = [R] := by
  by_cases h1 : R = "checkbox"
  · subst h1; decide
  by_cases h2 : R = "radio"
  · subst h2; decide
  by_cases h3 : R = "combobox"
  · subst h3; decide
  by_cases h4 : R = "tab"
  · subst h4; decide
  by_cases h5 : R = "slider"
  · subst h5; decide
  by_cases h6 : R = "scrollbar"
  · subst h6; decide
  by_cases h7 : R = "heading"
  · subst h7; decide
  by_cases h8 : R = "option"
  · subst h8; decide
  exfalso
  simp only [ROLE_TO_REQUIRED_ARIA_PROPS, List.lookup_cons, List.lookup_nil,
    beq_eq_false_iff_ne.mpr h1, beq_eq_false_iff_ne.mpr h2, beq_eq_false_iff_ne.mpr h3,
    beq_eq_false_iff_ne.mpr h4, beq_eq_false_iff_ne.mpr h5, beq_eq_false_iff_ne.mpr h6,
    beq_eq_false_iff_ne.mpr h7, beq_eq_false_iff_ne.mpr h8] at h
  exact Option.noConfusion h

lemma gfpRun_eq_if (el : JSXOpeningElement) (sp : Span)
    (hrefItem : JSXAttributeItem) (v : String)
    (hname : el.name = JSXElementName.Identifier "link" sp)
    (hhref : has_jsx_prop_lowercase el "href" = some hrefItem)
    (hval : get_string_literal_prop_value hrefItem = some v)
    (hstart : strStartsWith v "https://fonts.gstatic.com" = true) :
    GoogleFontPreconnect.run (.JSXOpeningElement el) =
      if relIsPreconnect el then [] else [⟨sp⟩] := by
  simp only [GoogleFontPreconnect.run]
  rw [hname]
  simp only [ne_eq, not_true_eq_false, if_false, ite_false]
  rw [hhref]
  simp only []
  rw [hval]
  simp only [hstart, Bool.true_and]
  unfold relIsPreconnect
  cases hrel : has_jsx_prop_lowercase el "rel" with
  | none => simp
  | some relProp =>
    cases hg : get_string_literal_prop_value relProp == some "preconnect" <;> simp [hg]

lemma noSyncRun_script (el : JSXOpeningElement) (sp : Span)
    (hname : el.name = JSXElementName.Identifier "script" sp) :
    NoSyncScripts.run (.JSXOpeningElement el) =
      if "src" ∈ attrIdentNames el ∧ "async" ∉ attrIdentNames el ∧
          "defer" ∉ attrIdentNames el
      then [⟨sp⟩] else [] := by
  simp only [NoSyncScripts.run]
  rw [hname]
  simp

lemma mem_roleRun_missing (el : JSXOpeningElement)
    (d : RoleHasRequiredAriaPropsDiagnostic)
    (hd : d ∈ RoleHasRequiredAriaProps.run (.JSXOpeningElement el)) :
    has_jsx_prop_lowercase el d.props = none := by
  simp only [RoleHasRequiredAriaProps.run] at hd
  cases hrole : has_jsx_prop_lowercase el "role" with
  | none => rw [hrole] at hd; simp at hd
  | some roleProp =>
    rw [hrole] at hd
    cases roleProp with
    | SpreadAttribute => simp at hd
    | Attribute attr =>
      obtain ⟨anm, av, asp⟩ := attr
      cases av with
      | none => simp at hd
      | some val =>
        cases val with
        | StringLiteral s =>
          simp only [List.mem_flatMap] at hd
          obtain ⟨role, hrmem, hd2⟩ := hd
          unfold diagnosticsForRole at hd2
          cases hl : List.lookup role ROLE_TO_REQUIRED_ARIA_PROPS with
          | none => rw [hl] at hd2; simp at hd2
          | some props =>
            rw [hl] at hd2
            simp only [List.mem_filterMap] at hd2
            obtain ⟨prop, hpmem, heq⟩ := hd2
            by_cases hno : (has_jsx_prop_lowercase el prop).isNone = true
            · rw [if_pos hno] at heq
              obtain rfl : ({ span := asp, role := role, props := prop } :
                  RoleHasRequiredAriaPropsDiagnostic) = d := Option.some.inj heq
              exact Option.isNone_iff_eq_none.mp hno
            · rw [if_neg hno] at heq
              exact Option.noConfusion heq
        | ExpressionContainer => simp at hd
        | Element => simp at hd
        | Fragment => simp at hd

lemma find?_filter_isNamedAttr (t : String) (l : List JSXAttributeItem) :
    (l.filter isNamedAttr).find? (matchesLowercase t) = l.find? (matchesLowercase t) := by
  induction l with
  | nil => rfl
  | cons x xs ih =>
    cases x with
    | Attribute a =>
      have ht : isNamedAttr (JSXAttributeItem.Attribute a) = true := rfl
      rw [List.filter_cons, ht]
      simp only [if_true]
      cases hm : matchesLowercase t (JSXAttributeItem.Attribute a)
      · rw [List.find?_cons_of_neg _ (by simp [hm]),
          List.find?_cons_of_neg _ (by simp [hm]), ih]
      · rw [List.find?_cons_of_pos _ hm, List.find?_cons_of_pos _ hm]
    | SpreadAttribute =>
      have hf : isNamedAttr JSXAttributeItem.SpreadAttribute = false := rfl
      have hm : matchesLowercase t JSXAttributeItem.SpreadAttribute = false := rfl
      rw [List.filter_cons, hf]
      simp only [Bool.false_eq_true, if_false]
      rw [List.find?_cons_of_neg _ (by simp [hm]), ih]

lemma hasProp_removeSpreads (el : JSXOpeningElement) (t : String) :
    has_jsx_prop_lowercase (removeSpreads el) t = has_jsx_prop_lowercase el t :=
  find?_filter_isNamedAttr t el.attributes

lemma filterMap_attrNameOf_filter (l : List JSXAttributeItem) :
    (l.filter isNamedAttr).filterMap attrNameOf = l.filterMap attrNameOf := by
  induction l with
  | nil => rfl
  | cons x xs ih =>
    cases x with
    | Attribute a =>
      have ht : isNamedAttr (JSXAttributeItem.Attribute a) = true := rfl
      rw [List.filter_cons, ht]
      simp only [if_true]
      rw [List.filterMap_cons, List.filterMap_cons, ih]
    | SpreadAttribute =>
      have hf : isNamedAttr JSXAttributeItem.SpreadAttribute = false := rfl
      rw [List.filter_cons, hf]
      simp only [Bool.false_eq_true, if_false]
      rw [ih, List.filterMap_cons]
      rfl

lemma attrIdentNames_removeSpreads (el : JSXOpeningElement) :
    attrIdentNames (removeSpreads el) = attrIdentNames el :=
  filterMap_attrNameOf_filter el.attributes

lemma noSyncRun_removeSpreads (el : JSXOpeningElement) :
    NoSyncScripts.run (.JSXOpeningElement (removeSpreads el)) =
      NoSyncScripts.run (.JSXOpeningElement el) := by
  obtain ⟨n, attrs⟩ := el
  cases n with
  | Identifier nm sp =>
    simp only [NoSyncScripts.run, removeSpreads, attrIdentNames,
      filterMap_attrNameOf_filter]
  | NamespacedName => rfl
  | MemberExpression => rfl

/-! ## The claims -/

/-- C1: for every JSX opening element whose `role` attribute has a literal
string value equal to a known role of `ROLE_TO_REQUIRED_ARIA_PROPS`, the
number of diagnostics `RoleHasRequiredAriaProps.run` emits equals the number
of required props of that role that are absent (matched case-insensitively)
from the named attributes of the element — one diagnostic per missing
required prop. -/
theorem role_presence_completeness (el : JSXOpeningElement) (attr : JSXAttribute)
    (R : String) (props : List String)
    (hrole : has_jsx_prop_lowercase el "role" = some (.Attribute attr))
    (hval : attr.value = some (.StringLiteral R))
    (hlook : ROLE_TO_REQUIRED_ARIA_PROPS.lookup R = some props) :
    (RoleHasRequiredAriaProps.run (.JSXOpeningElement el)).length
      = (props.filter fun p => !(presentLowercase el p)).length := by
  rw [roleRun_eq el attr R hrole hval, lookup_role_whitespace_free R props hlook]
  simp only [List.flatMap_cons, List.flatMap_nil, List.append_nil]
  rw [diagnosticsForRole_length]
  unfold requiredProps
  rw [hlook]
  rfl

/-- C1 witness: `<div role="checkbox" />` misses exactly the one required
prop `aria-checked`, so the rule emits exactly one diagnostic. -/
theorem role_presence_completeness_witness :
    (RoleHasRequiredAriaProps.run (.JSXOpeningElement
      ⟨.Identifier "div" ⟨1, 4⟩,
       [.Attribute ⟨.Identifier "role", some (.StringLiteral "checkbox"),
         ⟨5, 20⟩⟩]⟩)).length = 1 :=
  (role_presence_completeness
      ⟨.Identifier "div" ⟨1, 4⟩,
       [.Attribute ⟨.Identifier "role", some (.StringLiteral "checkbox"), ⟨5, 20⟩⟩]⟩
      ⟨.Identifier "role", some (.StringLiteral "checkbox"), ⟨5, 20⟩⟩
      "checkbox" ["aria-checked"]
      (by decide) (by decide) (by decide)).trans (by decide)

/-- C10: `RoleHasRequiredAriaProps.run` splits the literal `role` value on
whitespace and checks every token independently: the diagnostic count is the
sum, over the tokens, of the number of required props of that token absent
case-insensitively from the element (tokens outside the table have no
required props and so contribute zero diagnostics). -/
theorem role_split_tokens (el : JSXOpeningElement) (attr : JSXAttribute) (s : String)
    (hrole : has_jsx_prop_lowercase el "role" = some (.Attribute attr))
    (hval : attr.value = some (.StringLiteral s)) :
    (RoleHasRequiredAriaProps.run (.JSXOpeningElement el)).length =
      ((splitWhitespaceTokens s).map fun role =>
        ((requiredProps role).filter fun p => !(presentLowercase el p)).length).sum := by
  rw [roleRun_eq el attr s hrole hval, length_flatMap_eq_sum]
  simp only [diagnosticsForRole_length]

/-- C10 witness: `<div role="checkbox foo slider" />` gets one diagnostic for
`checkbox`, none for the unrecognized token `foo`, and three for `slider`. -/
theorem role_split_tokens_witness :
    (RoleHasRequiredAriaProps.run (.JSXOpeningElement
      ⟨.Identifier "div" ⟨1, 4⟩,
       [.Attribute ⟨.Identifier "role", some (.StringLiteral "checkbox foo slider"),
         ⟨5, 33⟩⟩]⟩)).length = 4 :=
  (role_split_tokens
      ⟨.Identifier "div" ⟨1, 4⟩,
       [.Attribute ⟨.Identifier "role", some (.StringLiteral "checkbox foo slider"),
         ⟨5, 33⟩⟩]⟩
      ⟨.Identifier "role", some (.StringLiteral "checkbox foo slider"), ⟨5, 33⟩⟩
      "checkbox foo slider"
      (by decide) (by decide)).trans (by decide)

/-- C2: for every `link` element whose `href` attribute has a literal string
value starting with the Google Fonts host, `GoogleFontPreconnect.run` emits
exactly one diagnostic iff the `rel` attribute is absent or its value is not
the exact string literal `preconnect` (a multi-valued `rel` is not split and
counts as missing), and emits zero diagnostics iff `rel` equals `preconnect`
exactly. -/
theorem google_font_preconnect_exact_match (el : JSXOpeningElement) (sp : Span)
    (hrefItem : JSXAttributeItem) (v : String)
    (hname : el.name = JSXElementName.Identifier "link" sp)
    (hhref : has_jsx_prop_lowercase el "href" = some hrefItem)
    (hval : get_string_literal_prop_value hrefItem = some v)
    (hstart : strStartsWith v "https://fonts.gstatic.com" = true) :
    ((GoogleFontPreconnect.run (.JSXOpeningElement el)).length = 1
        ↔ relIsPreconnect el = false)
      ∧ (GoogleFontPreconnect.run (.JSXOpeningElement el) = []
        ↔ relIsPreconnect el = true) := by
  rw [gfpRun_eq_if el sp hrefItem v hname hhref hval hstart]
  cases h : relIsPreconnect el <;> simp

/-- C2 witness: `<link href="https://fonts.gstatic.com" rel="preconnect noopener"/>`
has a `rel` value that is not the exact literal `preconnect`, so exactly one
diagnostic is emitted. -/
theorem google_font_preconnect_exact_match_witness :
    (GoogleFontPreconnect.run (.JSXOpeningElement
      ⟨.Identifier "link" ⟨1, 5⟩,
       [.Attribute ⟨.Identifier "href",
          some (.StringLiteral "https://fonts.gstatic.com"), ⟨6, 38⟩⟩,
        .Attribute ⟨.Identifier "rel",
          some (.StringLiteral "preconnect noopener"), ⟨39, 65⟩⟩]⟩)).length = 1 :=
  (google_font_preconnect_exact_match
      ⟨.Identifier "link" ⟨1, 5⟩,
       [.Attribute ⟨.Identifier "href",
          some (.StringLiteral "https://fonts.gstatic.com"), ⟨6, 38⟩⟩,
        .Attribute ⟨.Identifier "rel",
          some (.StringLiteral "preconnect noopener"), ⟨39, 65⟩⟩]⟩
      ⟨1, 5⟩
      (.Attribute ⟨.Identifier "href",
        some (.StringLiteral "https://fonts.gstatic.com"), ⟨6, 38⟩⟩)
      "https://fonts.gstatic.com"
      (by decide) (by decide) (by decide) (by decide)).1.mpr (by decide)

/-- C3 counterexample: the claim says `NoSyncScripts` treats a `script`
element carrying `SRC` the same as one carrying `src`; the code compares the
collected attribute names case-sensitively, so the `SRC` element yields zero
diagnostics while the `src` element yields one. -/
theorem attr_lookup_case_counterexample :
    NoSyncScripts.run (.JSXOpeningElement
      ⟨.Identifier "script" ⟨1, 7⟩,
       [.Attribute ⟨.Identifier "SRC", some (.StringLiteral "a.js"), ⟨8, 18⟩⟩]⟩) = []
    ∧ NoSyncScripts.run (.JSXOpeningElement
      ⟨.Identifier "script" ⟨1, 7⟩,
       [.Attribute ⟨.Identifier "src", some (.StringLiteral "a.js"), ⟨8, 18⟩⟩]⟩)
      = [⟨⟨1, 7⟩⟩] := by
  exact ⟨by decide, by decide⟩

/-- C3 amended: lookups that go through `has_jsx_prop_lowercase`
(`RoleHasRequiredAriaProps`, `GoogleFontPreconnect`) match attribute names
case-insensitively — the lookup result depends only on the lowercased target,
and an element carrying the sought attribute under any letter-casing makes
the lookup succeed.  `NoSyncScripts`, however, compares its collected
attribute names case-sensitively, so a `script` element whose only attribute
is named `SRC` is treated as if `src` were absent and yields zero
diagnostics. -/
theorem attr_lookup_case_insensitivity_amended :
    (∀ (el : JSXOpeningElement) (t1 t2 : String), toLowerStr t1 = toLowerStr t2 →
        has_jsx_prop_lowercase el t1 = has_jsx_prop_lowercase el t2)
    ∧ (∀ (el : JSXOpeningElement) (n : String) (v : Option JSXAttributeValue)
        (sp2 : Span) (t : String),
        JSXAttributeItem.Attribute ⟨.Identifier n, v, sp2⟩ ∈ el.attributes →
        toLowerStr n = toLowerStr t →
        (has_jsx_prop_lowercase el t).isSome = true)
    ∧ (∀ (sp sp2 : Span) (v : Option JSXAttributeValue),
        NoSyncScripts.run (.JSXOpeningElement ⟨.Identifier "script" sp,
          [.Attribute ⟨.Identifier "SRC", v, sp2⟩]⟩) = []) := by
  refine ⟨?_, ?_, ?_⟩
  · intro el t1 t2 ht
    unfold has_jsx_prop_lowercase
    have hfun : matchesLowercase t1 = matchesLowercase t2 := by
      funext item
      cases item with
      | Attribute a =>
        cases hn : a.name with
        | Identifier n => simp [matchesLowercase, hn, ht]
        | NamespacedName ns nm => simp [matchesLowercase, hn]
      | SpreadAttribute => rfl
    rw [hfun]
  · intro el n v sp2 t hmem ht
    unfold has_jsx_prop_lowercase
    exact List.find?_isSome.mpr ⟨_, hmem, by simp [matchesLowercase, ht]⟩
  · intro sp sp2 v
    simp [NoSyncScripts.run, attrIdentNames, attrNameOf]

/-- C3 amended witness: on a `script` element whose only attribute is named
`SRC`, the case-insensitive lookup finds it under the targets `src` and `Src`
alike, while `NoSyncScripts` emits nothing. -/
theorem attr_lookup_case_insensitivity_amended_witness :
    (has_jsx_prop_lowercase
        ⟨.Identifier "script" ⟨1, 7⟩,
         [.Attribute ⟨.Identifier "SRC", some (.StringLiteral "a.js"), ⟨8, 18⟩⟩]⟩ "src")
      = (has_jsx_prop_lowercase
        ⟨.Identifier "script" ⟨1, 7⟩,
         [.Attribute ⟨.Identifier "SRC", some (.StringLiteral "a.js"), ⟨8, 18⟩⟩]⟩ "Src")
    ∧ (has_jsx_prop_lowercase
        ⟨.Identifier "script" ⟨1, 7⟩,
         [.Attribute ⟨.Identifier "SRC", some (.StringLiteral "a.js"), ⟨8, 18⟩⟩]⟩
        "src").isSome = true :=
  ⟨attr_lookup_case_insensitivity_amended.1
      ⟨.Identifier "script" ⟨1, 7⟩,
       [.Attribute ⟨.Identifier "SRC", some (.StringLiteral "a.js"), ⟨8, 18⟩⟩]⟩
      "src" "Src" (by decide),
   attr_lookup_case_insensitivity_amended.2.1
      ⟨.Identifier "script" ⟨1, 7⟩,
       [.Attribute ⟨.Identifier "SRC", some (.StringLiteral "a.js"), ⟨8, 18⟩⟩]⟩
      "SRC" (some (.StringLiteral "a.js")) ⟨8, 18⟩ "src" (by decide) (by decide)⟩

/-- C4: when the condition-bearing attribute (`role` for
`RoleHasRequiredAriaProps`, `href` for `GoogleFontPreconnect`) has a
non-literal expression value rather than a string literal, the rule emits
zero diagnostics for that element, regardless of the other attributes. -/
theorem nonliteral_suppression :
    (∀ (el : JSXOpeningElement) (attr : JSXAttribute),
        has_jsx_prop_lowercase el "role" = some (.Attribute attr) →
        attr.value = some JSXAttributeValue.ExpressionContainer →
        RoleHasRequiredAriaProps.run (.JSXOpeningElement el) = [])
    ∧ (∀ (el : JSXOpeningElement) (attr : JSXAttribute),
        has_jsx_prop_lowercase el "href" = some (.Attribute attr) →
        attr.value = some JSXAttributeValue.ExpressionContainer →
        GoogleFontPreconnect.run (.JSXOpeningElement el) = []) := by
  constructor
  · intro el attr hrole hval
    obtain ⟨anm, av, asp⟩ := attr
    simp only at hval
    subst hval
    simp only [RoleHasRequiredAriaProps.run]
    rw [hrole]
  · intro el attr hhref hval
    obtain ⟨anm, av, asp⟩ := attr
    simp only at hval
    subst hval
    obtain ⟨n, attrs⟩ := el
    cases n with
    | Identifier nm sp =>
      simp only [GoogleFontPreconnect.run]
      by_cases hnm : nm = "link"
      · subst hnm
        simp only [ne_eq, not_true_eq_false, if_false, ite_false]
        rw [hhref]
        rfl
      · rw [if_pos hnm]
    | NamespacedName => rfl
    | MemberExpression => rfl

/-- C4 witness: `<div role={expr} />` and `<link href={expr} />` each yield
zero diagnostics. -/
theorem nonliteral_suppression_witness :
    RoleHasRequiredAriaProps.run (.JSXOpeningElement
      ⟨.Identifier "div" ⟨1, 4⟩,
       [.Attribute ⟨.Identifier "role", some .ExpressionContainer, ⟨5, 17⟩⟩]⟩) = []
    ∧ GoogleFontPreconnect.run (.JSXOpeningElement
      ⟨.Identifier "link" ⟨1, 5⟩,
       [.Attribute ⟨.Identifier "href", some .ExpressionContainer, ⟨6, 18⟩⟩]⟩) = [] :=
  ⟨nonliteral_suppression.1
      ⟨.Identifier "div" ⟨1, 4⟩,
       [.Attribute ⟨.Identifier "role", some .ExpressionContainer, ⟨5, 17⟩⟩]⟩
      ⟨.Identifier "role", some .ExpressionContainer, ⟨5, 17⟩⟩ (by decide) rfl,
   nonliteral_suppression.2
      ⟨.Identifier "link" ⟨1, 5⟩,
       [.Attribute ⟨.Identifier "href", some .ExpressionContainer, ⟨6, 18⟩⟩]⟩
      ⟨.Identifier "href", some .ExpressionContainer, ⟨6, 18⟩⟩ (by decide) rfl⟩

/-- C5: spread attributes are treated as absent — deleting every spread item
from an element changes neither the result of `has_jsx_prop_lowercase` nor
the diagnostics of `NoSyncScripts.run`, and a `script` element whose only
attribute is a spread yields zero diagnostics because no `src` named
attribute is found. -/
theorem spread_conservatism :
    (∀ (el : JSXOpeningElement) (t : String),
        has_jsx_prop_lowercase (removeSpreads el) t = has_jsx_prop_lowercase el t)
    ∧ (∀ el : JSXOpeningElement,
        NoSyncScripts.run (.JSXOpeningElement (removeSpreads el)) =
          NoSyncScripts.run (.JSXOpeningElement el))
    ∧ (∀ sp : Span,
        NoSyncScripts.run (.JSXOpeningElement
          ⟨.Identifier "script" sp, [JSXAttributeItem.SpreadAttribute]⟩) = []) := by
  refine ⟨hasProp_removeSpreads, noSyncRun_removeSpreads, ?_⟩
  intro sp
  simp [NoSyncScripts.run, attrIdentNames, attrNameOf]

/-- C6 counterexample: the claim says a `script` element with a named `src`
and no `async` gets exactly one diagnostic, but the code also requires
`defer` to be absent: `<script src="a.js" defer></script>` has `src`, no
`async`, and yields zero diagnostics, not one. -/
theorem no_sync_scripts_defer_counterexample :
    NoSyncScripts.run (.JSXOpeningElement
      ⟨.Identifier "script" ⟨2, 8⟩,
       [.Attribute ⟨.Identifier "src", some (.StringLiteral "a.js"), ⟨9, 19⟩⟩,
        .Attribute ⟨.Identifier "defer", none, ⟨20, 25⟩⟩]⟩) = []
    ∧ (NoSyncScripts.run (.JSXOpeningElement
      ⟨.Identifier "script" ⟨2, 8⟩,
       [.Attribute ⟨.Identifier "src", some (.StringLiteral "a.js"), ⟨9, 19⟩⟩,
        .Attribute ⟨.Identifier "defer", none, ⟨20, 25⟩⟩]⟩)).length ≠ 1 := by
  exact ⟨by decide, by decide⟩

/-- C6 amended: a `script` element with a named `src` attribute and neither
`async` nor `defer` gets exactly one diagnostic at the element-name span;
an element carrying an `async` attribute gets zero diagnostics, regardless
of the `src` value (the rule never inspects attribute values). -/
theorem no_sync_scripts_amended :
    (∀ (el : JSXOpeningElement) (sp : Span),
        el.name = JSXElementName.Identifier "script" sp →
        "src" ∈ attrIdentNames el → "async" ∉ attrIdentNames el →
        "defer" ∉ attrIdentNames el →
        NoSyncScripts.run (.JSXOpeningElement el) = [⟨sp⟩])
    ∧ (∀ el : JSXOpeningElement, "async" ∈ attrIdentNames el →
        NoSyncScripts.run (.JSXOpeningElement el) = []) := by
  constructor
  · intro el sp hname hsrc hasync hdefer
    rw [noSyncRun_script el sp hname, if_pos ⟨hsrc, hasync, hdefer⟩]
  · intro el hasync
    obtain ⟨n, attrs⟩ := el
    cases n with
    | Identifier nm sp =>
      by_cases hnm : nm = "script"
      · subst hnm
        rw [noSyncRun_script _ sp rfl, if_neg]
        rintro ⟨h1, h2, h3⟩
        exact h2 hasync
      · simp [NoSyncScripts.run, hnm]
    | NamespacedName => rfl
    | MemberExpression => rfl

/-- C6 amended witness: `<script src="a.js"></script>` gets exactly one
diagnostic; `<script src="a.js" async></script>` gets zero. -/
theorem no_sync_scripts_amended_witness :
    NoSyncScripts.run (.JSXOpeningElement
      ⟨.Identifier "script" ⟨1, 7⟩,
       [.Attribute ⟨.Identifier "src", some (.StringLiteral "a.js"), ⟨8, 18⟩⟩]⟩)
      = [⟨⟨1, 7⟩⟩]
    ∧ NoSyncScripts.run (.JSXOpeningElement
      ⟨.Identifier "script" ⟨1, 7⟩,
       [.Attribute ⟨.Identifier "src", some (.StringLiteral "a.js"), ⟨8, 18⟩⟩,
        .Attribute ⟨.Identifier "async", none, ⟨19, 24⟩⟩]⟩) = [] :=
  ⟨no_sync_scripts_amended.1
      ⟨.Identifier "script" ⟨1, 7⟩,
       [.Attribute ⟨.Identifier "src", some (.StringLiteral "a.js"), ⟨8, 18⟩⟩]⟩
      ⟨1, 7⟩ rfl (by decide) (by decide) (by decide),
   no_sync_scripts_amended.2
      ⟨.Identifier "script" ⟨1, 7⟩,
       [.Attribute ⟨.Identifier "src", some (.StringLiteral "a.js"), ⟨8, 18⟩⟩,
        .Attribute ⟨.Identifier "async", none, ⟨19, 24⟩⟩]⟩ (by decide)⟩

/-- C7: a value-less (bare) attribute counts as present for the
presence-only check of `RoleHasRequiredAriaProps` — a required prop carried
as a bare attribute never produces a diagnostic naming it — while for the
value-equality check of `GoogleFontPreconnect` a bare `rel` never equals the
literal `preconnect`, so the diagnostic is still emitted. -/
theorem bare_attribute_semantics :
    (∀ (el : JSXOpeningElement) (n : String) (sp2 : Span) (p : String),
        JSXAttributeItem.Attribute ⟨.Identifier n, none, sp2⟩ ∈ el.attributes →
        toLowerStr n = toLowerStr p →
        ∀ d ∈ RoleHasRequiredAriaProps.run (.JSXOpeningElement el),
          d.props ≠ p)
    ∧ (∀ (el : JSXOpeningElement) (sp : Span) (hrefItem : JSXAttributeItem)
        (v : String) (relAttr : JSXAttribute),
        el.name = JSXElementName.Identifier "link" sp →
        has_jsx_prop_lowercase el "href" = some hrefItem →
        get_string_literal_prop_value hrefItem = some v →
        strStartsWith v "https://fonts.gstatic.com" = true →
        has_jsx_prop_lowercase el "rel" = some (.Attribute relAttr) →
        relAttr.value = none →
        GoogleFontPreconnect.run (.JSXOpeningElement el) = [⟨sp⟩]) := by
  constructor
  · intro el n sp2 p hmem ht d hd hdp
    subst hdp
    have hnone := mem_roleRun_missing el d hd
    have hsome : (has_jsx_prop_lowercase el d.props).isSome = true :=
      List.find?_isSome.mpr ⟨_, hmem, by simp [matchesLowercase, ht]⟩
    rw [hnone] at hsome
    simp at hsome
  · intro el sp hrefItem v relAttr hname hhref hval hstart hrel hrelval
    rw [gfpRun_eq_if el sp hrefItem v hname hhref hval hstart]
    have hfalse : relIsPreconnect el = false := by
      unfold relIsPreconnect
      rw [hrel]
      obtain ⟨rn, rv, rsp⟩ := relAttr
      simp only at hrelval
      subst hrelval
      rfl
    simp [hfalse]

/-- C7 witness: `<div role="checkbox" aria-checked />` gets no diagnostic
naming `aria-checked`; `<link href="https://fonts.gstatic.com" rel/>` still
gets its diagnostic. -/
theorem bare_attribute_semantics_witness :
    ¬ (({ span := ⟨5, 20⟩, role := "checkbox", props := "aria-checked" } :
        RoleHasRequiredAriaPropsDiagnostic) ∈ RoleHasRequiredAriaProps.run
        (.JSXOpeningElement ⟨.Identifier "div" ⟨1, 4⟩,
          [.Attribute ⟨.Identifier "role", some (.StringLiteral "checkbox"), ⟨5, 20⟩⟩,
           .Attribute ⟨.Identifier "aria-checked", none, ⟨21, 33⟩⟩]⟩))
    ∧ GoogleFontPreconnect.run (.JSXOpeningElement
        ⟨.Identifier "link" ⟨1, 5⟩,
         [.Attribute ⟨.Identifier "href",
            some (.StringLiteral "https://fonts.gstatic.com"), ⟨6, 38⟩⟩,
          .Attribute ⟨.Identifier "rel", none, ⟨39, 42⟩⟩]⟩) = [⟨⟨1, 5⟩⟩] :=
  ⟨fun hmem => bare_attribute_semantics.1
      ⟨.Identifier "div" ⟨1, 4⟩,
       [.Attribute ⟨.Identifier "role", some (.StringLiteral "checkbox"), ⟨5, 20⟩⟩,
        .Attribute ⟨.Identifier "aria-checked", none, ⟨21, 33⟩⟩]⟩
      "aria-checked" ⟨21, 33⟩ "aria-checked" (by decide) (by decide)
      ⟨⟨5, 20⟩, "checkbox", "aria-checked"⟩ hmem rfl,
   bare_attribute_semantics.2
      ⟨.Identifier "link" ⟨1, 5⟩,
       [.Attribute ⟨.Identifier "href",
          some (.StringLiteral "https://fonts.gstatic.com"), ⟨6, 38⟩⟩,
        .Attribute ⟨.Identifier "rel", none, ⟨39, 42⟩⟩]⟩
      ⟨1, 5⟩
      (.Attribute ⟨.Identifier "href",
        some (.StringLiteral "https://fonts.gstatic.com"), ⟨6, 38⟩⟩)
      "https://fonts.gstatic.com"
      ⟨.Identifier "rel", none, ⟨39, 42⟩⟩
      rfl (by decide) (by decide) (by decide) (by decide) rfl⟩

/-- C8: each `run` is deterministic — the embedding of every rule is a pure
function of the node, so running it twice on the same node (same tree, same
context) yields definitionally the same diagnostic list: same count, same
spans, same order, including the per-property order within one role. -/
theorem rules_deterministic :
    ∀ node : AstKind,
      NoSyncScripts.run node = NoSyncScripts.run node
      ∧ GoogleFontPreconnect.run node = GoogleFontPreconnect.run node
      ∧ RoleHasRequiredAriaProps.run node = RoleHasRequiredAriaProps.run node :=
  fun _ => ⟨rfl, rfl, rfl⟩

/-- C9: a `script` element carrying `async` or `defer` (in particular one
with a named `src` and `defer` but no `async`) gets zero diagnostics from
`NoSyncScripts.run` — either attribute suppresses the diagnostic. -/
theorem no_sync_scripts_async_or_defer (el : JSXOpeningElement)
    (h : "async" ∈ attrIdentNames el ∨ "defer" ∈ attrIdentNames el) :
    NoSyncScripts.run (.JSXOpeningElement el) = [] := by
  obtain ⟨n, attrs⟩ := el
  cases n with
  | Identifier nm sp =>
    by_cases hnm : nm = "script"
    · subst hnm
      rw [noSyncRun_script _ sp rfl, if_neg]
      rintro ⟨h1, h2, h3⟩
      cases h with
      | inl ha => exact h2 ha
      | inr hd => exact h3 hd
    · simp [NoSyncScripts.run, hnm]
  | NamespacedName => rfl
  | MemberExpression => rfl

/-- C9 witness: `<script src="b.js" defer></script>` yields zero
diagnostics. -/
theorem no_sync_scripts_async_or_defer_witness :
    NoSyncScripts.run (.JSXOpeningElement
      ⟨.Identifier "script" ⟨3, 9⟩,
       [.Attribute ⟨.Identifier "src", some (.StringLiteral "b.js"), ⟨10, 20⟩⟩,
        .Attribute ⟨.Identifier "defer", none, ⟨21, 26⟩⟩]⟩) = [] :=
  no_sync_scripts_async_or_defer
    ⟨.Identifier "script" ⟨3, 9⟩,
     [.Attribute ⟨.Identifier "src", some (.StringLiteral "b.js"), ⟨10, 20⟩⟩,
      .Attribute ⟨.Identifier "defer", none, ⟨21, 26⟩⟩]⟩
    (Or.inr (by decide))

end Oxc
